import Mathlib

/-!
Verification of the Calamares partition-layout planner
(`src/modules/partition/core/PartitionActions.cpp`).

The three functions of that file — `swapSuggestion`, `doAutopartition` and
`doReplacePartition` — are embedded shallowly.  Machine integers (`qint64`)
are modelled as `ℤ`; the C++ `qreal` overestimation factor is modelled as
`ℚ`, with the store back into a `qint64` modelled as truncation toward zero
(`truncQ`).  External collaborators (firmware detection, global storage,
the memory-info provider, the KPMCore partition engine) are modelled as
explicit inputs and as a pure plan value, following the component
contracts of the specification.
-/

/-- Swap policy choices (`Config::SwapChoice`).  Only `SmallSwap` and
`FullSwap` lead to a swap suggestion or a swap partition. -/
inductive SwapChoice where
  | NoSwap
  | ReuseSwap
  | SmallSwap
  | FullSwap
  | SwapFile
deriving DecidableEq

/-- Bytes in `n` MiB (the `_MiB` literal of `utils/Units.h`). -/
def mib (n : ℤ) : ℤ := n * 2 ^ 20

/-- Bytes in `n` GiB (the `_GiB` literal of `utils/Units.h`). -/
def gib (n : ℤ) : ℤ := n * 2 ^ 30

/-- Conversion of a rational to `qint64`: C++ float-to-integer conversion
truncates toward zero. -/
def truncQ (q : ℚ) : ℤ := if 0 ≤ q then ⌊q⌋ else ⌈q⌉

/-- The RAM-tier base size of `swapSuggestion` (PartitionActions.cpp lines
52-64): ramp up quickly to 8 GiB, then follow memory size. -/
def swapBase (availableRamB : ℤ) : ℤ :=
  if availableRamB ≤ gib 4 then availableRamB * 2
  else if availableRamB ≤ gib 8 then gib 8
  else availableRamB

/-- Flag `ensureSuspendToDisk` of `swapSuggestion` (line 50): true exactly
for `FullSwap`. -/
def ensureSuspendToDisk (swap : SwapChoice) : Bool := swap = SwapChoice.FullSwap

/-- The suggested size after the 8 GiB ceiling (lines 66-70): the ceiling is
applied only when suspend-to-disk does not matter, i.e. not for `FullSwap`. -/
def swapAfterCeiling (swap : SwapChoice) (availableRamB : ℤ) : ℤ :=
  if ensureSuspendToDisk swap then swapBase availableRamB
  else min (gib 8) (swapBase availableRamB)

/-- The suggested size after multiplying by the overestimation factor
(line 74); the product is stored back into a `qint64`, truncating. -/
def swapAfterScaling (swap : SwapChoice) (availableRamB : ℤ)
    (overestimationFactor : ℚ) : ℤ :=
  truncQ ((swapAfterCeiling swap availableRamB : ℚ) * overestimationFactor)

/-- Function `PartitionActions::swapSuggestion` (lines 36-85).  The RAM
size and the overestimation factor, which the C++ code obtains from the
`CalamaresUtils::System` memory-info collaborator, are explicit arguments
here, per the MemoryInfo-provider contract of the specification.  The C++
literal `0.10` is modelled as the exact rational `1/10`. -/
def swapSuggestion (availableSpaceB : ℤ) (swap : SwapChoice)
    (availableRamB : ℤ) (overestimationFactor : ℚ) : ℤ :=
  if swap ≠ SwapChoice.SmallSwap ∧ swap ≠ SwapChoice.FullSwap then 0
  else if ensureSuspendToDisk swap then
    swapAfterScaling swap availableRamB overestimationFactor
  else
    min (swapAfterScaling swap availableRamB overestimationFactor)
      (truncQ (1 / 10 * (availableSpaceB : ℚ)))

/-- A KPMCore partition-role flag set (`PartitionRole::Roles`): a partition
may carry the Primary, Extended, Logical and Unallocated role flags. -/
structure PartitionRole where
  primary : Bool
  extended : Bool
  logical : Bool
  unallocated : Bool
deriving DecidableEq

/-- Role set `PartitionRole( PartitionRole::Primary )`. -/
def rolePrimary : PartitionRole := ⟨true, false, false, false⟩

/-- Role set `PartitionRole( PartitionRole::Logical )`. -/
def roleLogical : PartitionRole := ⟨false, false, true, false⟩

/-- The filesystem types that `doAutopartition` can mention.  `Unknown` is
the result of an unrecognized configured name (`PartUtils::findFS`). -/
inductive FileSystemType where
  | Unknown
  | Ext4
  | Fat32
  | LinuxSwap
deriving DecidableEq

/-- Partition-table types; `unknownTableType` is the result of an
unrecognized configured name (`PartitionTable::nameToTableType`). -/
inductive TableType where
  | unknownTableType
  | gpt
  | msdos
deriving DecidableEq

/-- A planned partition-creation request, as handed to the KPMCore engine:
role, filesystem, label, inclusive sector range, format flag, optional LUKS
passphrase, ESP flag and mount point. -/
structure PlannedPartition where
  role : PartitionRole
  fs : FileSystemType
  label : String
  firstSector : ℤ
  lastSector : ℤ
  format : Bool
  passphrase : Option String
  espFlag : Bool
  mountPoint : String
deriving DecidableEq

/-- Helper `KPMHelpers::createNewPartition`: a plain (unencrypted) creation
request.  `PartitionInfo::setFormat` and label overrides are applied
afterwards by the callers, as in the source. -/
def createNewPartition (role : PartitionRole) (fs : FileSystemType)
    (label : String) (firstSector lastSector : ℤ) : PlannedPartition :=
  { role := role, fs := fs, label := label, firstSector := firstSector,
    lastSector := lastSector, format := false, passphrase := none,
    espFlag := false, mountPoint := "" }

/-- Helper `KPMHelpers::createNewEncryptedPartition`: same as
`createNewPartition` but carrying a LUKS passphrase. -/
def createNewEncryptedPartition (role : PartitionRole) (fs : FileSystemType)
    (label : String) (firstSector lastSector : ℤ) (passphrase : String) :
    PlannedPartition :=
  { role := role, fs := fs, label := label, firstSector := firstSector,
    lastSector := lastSector, format := false,
    passphrase := some passphrase, espFlag := false, mountPoint := "" }

/-- A device (kpmcore `Device`): logical sector size in bytes, total count
of logical sectors, capacity in bytes. -/
structure Device where
  logicalSize : ℤ
  totalLogical : ℤ
  capacity : ℤ

/-- The global-storage keys read by `doAutopartition`.  The value of
`efiSystemPartitionSize` is stored here already resolved to bytes, since
the size-or-percentage string parsing
(`CalamaresUtils::Partition::PartitionSize`) is an external collaborator
resolved against the device capacity. -/
structure GlobalStorage where
  efiSystemPartitionSizeB : Option ℤ
  efiSystemPartitionName : Option String
  swapPartitionName : Option String

/-- The ambient collaborators queried by `doAutopartition`: the firmware
detector (`PartUtils::isEfiSystem`), global storage, and the memory-info
provider (`CalamaresUtils::System::getTotalMemoryB`). -/
structure PlanEnv where
  isEfi : Bool
  gs : GlobalStorage
  totalRamB : ℤ
  overestimationFactor : ℚ

/-- Options bundle `Choices::AutoPartitionOptions`.  The table-type and
filesystem fields hold the result of the external name lookups
(`nameToTableType`, `findFS`), with `unknownTableType` / `Unknown` for
unrecognized names. -/
structure AutoPartitionOptions where
  defaultPartitionTableType : TableType
  defaultFsType : FileSystemType
  swap : SwapChoice
  requiredSpaceB : ℤ
  luksPassphrase : String
  efiPartitionMountPoint : String

/-- Modelled from the spec: `CalamaresUtils::bytesToSectors` lives in
`utils/Units.h`, which is not among the sources here; section 6 of the
specification defines the conversion as `bytes / device.logicalSectorSize`,
always producing whole sectors with fractional remainders truncated. -/
def bytesToSectors (bytes blocksize : ℤ) : ℤ := bytes.tdiv blocksize

/-- Leading reserved space (line 98): 2 MiB on EFI, 1 MiB on BIOS. -/
def autopartEmptySpaceSizeB (env : PlanEnv) : ℤ :=
  if env.isEfi then mib 2 else mib 1

/-- The first free sector before any ESP is allocated (line 103). -/
def autopartFirstFreeSector0 (env : PlanEnv) (dev : Device) : ℤ :=
  bytesToSectors (autopartEmptySpaceSizeB env) dev.logicalSize

/-- ESP size in bytes (lines 119-125): 300 MiB unless overridden through
global storage. -/
def autopartUefisysPartSizeB (env : PlanEnv) : ℤ :=
  (env.gs.efiSystemPartitionSizeB).getD (mib 300)

/-- ESP size in sectors (line 127). -/
def autopartEfiSectorCount (env : PlanEnv) (dev : Device) : ℤ :=
  bytesToSectors (autopartUefisysPartSizeB env) dev.logicalSize

/-- Last sector of the ESP (line 133). -/
def autopartEspLastSector (env : PlanEnv) (dev : Device) : ℤ :=
  autopartFirstFreeSector0 env dev + autopartEfiSectorCount env dev - 1

/-- The ESP creation request (lines 117-149), present only on EFI: a
Primary FAT32 partition from the first free sector, formatted, flagged as
ESP, mounted at the configured mount point, labeled from global storage if
a label is configured there. -/
def autopartEsp (env : PlanEnv) (dev : Device) (o : AutoPartitionOptions) :
    Option PlannedPartition :=
  if env.isEfi then
    some { createNewPartition rolePrimary FileSystemType.Fat32 ""
             (autopartFirstFreeSector0 env dev) (autopartEspLastSector env dev) with
           format := true,
           mountPoint := o.efiPartitionMountPoint,
           label := (env.gs.efiSystemPartitionName).getD "",
           espFlag := true }
  else none

/-- The free-space cursor after the optional ESP (lines 103 and 149). -/
def autopartFirstFreeSector (env : PlanEnv) (dev : Device) : ℤ :=
  if env.isEfi then autopartEspLastSector env dev + 1
  else autopartFirstFreeSector0 env dev

/-- Condition `mayCreateSwap` (lines 152-153). -/
def autopartMayCreateSwap (o : AutoPartitionOptions) : Prop :=
  o.swap = SwapChoice.SmallSwap ∨ o.swap = SwapChoice.FullSwap

instance (o : AutoPartitionOptions) : Decidable (autopartMayCreateSwap o) := by
  unfold autopartMayCreateSwap
  infer_instance

/-- Value `availableSpaceB` (line 159): the space between the cursor and
the end of the device, in bytes. -/
def autopartAvailableSpaceB (env : PlanEnv) (dev : Device) : ℤ :=
  (dev.totalLogical - autopartFirstFreeSector env dev) * dev.logicalSize

/-- Value `suggestedSwapSizeB` (lines 155-160): the suggestion of the
advisor when the swap choice may create swap, 0 otherwise. -/
def autopartSuggestedSwapSizeB (env : PlanEnv) (dev : Device)
    (o : AutoPartitionOptions) : ℤ :=
  if autopartMayCreateSwap o then
    swapSuggestion (autopartAvailableSpaceB env dev) o.swap env.totalRamB
      env.overestimationFactor
  else 0

/-- Value `requiredSpaceB` (line 164): the distro requirement plus a
600 MiB fudge factor plus the suggested swap size. -/
def autopartRequiredSpaceB (env : PlanEnv) (dev : Device)
    (o : AutoPartitionOptions) : ℤ :=
  o.requiredSpaceB + mib 600 + autopartSuggestedSwapSizeB env dev o

/-- Condition `shouldCreateSwap` (lines 154-168): swap is created only for
a swap choice that may create swap and only when the available space
strictly exceeds the required space. -/
def autopartShouldCreateSwap (env : PlanEnv) (dev : Device)
    (o : AutoPartitionOptions) : Prop :=
  autopartMayCreateSwap o ∧
    autopartAvailableSpaceB env dev > autopartRequiredSpaceB env dev o

instance (env : PlanEnv) (dev : Device) (o : AutoPartitionOptions) :
    Decidable (autopartShouldCreateSwap env dev o) := by
  unfold autopartShouldCreateSwap
  infer_instance

/-- Value `lastSectorForRoot` (lines 170-174): the last sector of the
device, minus the swap sector count plus one when swap will be created. -/
def autopartLastSectorForRoot (env : PlanEnv) (dev : Device)
    (o : AutoPartitionOptions) : ℤ :=
  dev.totalLogical - 1 -
    (if autopartShouldCreateSwap env dev o then
      (autopartSuggestedSwapSizeB env dev o).tdiv dev.logicalSize + 1
    else 0)

/-- The swap creation request (lines 178-209): plain or encrypted according
to whether a LUKS passphrase was supplied, spanning from the sector after
the root range to the last sector of the device, formatted, labeled "swap"
unless overridden through global storage. -/
def autopartSwapPartition (env : PlanEnv) (dev : Device)
    (o : AutoPartitionOptions) : PlannedPartition :=
  let created :=
    if o.luksPassphrase.isEmpty then
      createNewPartition rolePrimary FileSystemType.LinuxSwap "swap"
        (autopartLastSectorForRoot env dev o + 1) (dev.totalLogical - 1)
    else
      createNewEncryptedPartition rolePrimary FileSystemType.LinuxSwap "swap"
        (autopartLastSectorForRoot env dev o + 1) (dev.totalLogical - 1)
        o.luksPassphrase
  let formatted := { created with format := true }
  { formatted with label := (env.gs.swapPartitionName).getD formatted.label }

/-- The complete plan emitted by `doAutopartition`: resolved table type,
resolved root filesystem, optional ESP request, the root-layout request
(first/last sector and passphrase, handed to `core->layoutApply`), and the
optional swap request. -/
structure AutoPlan where
  tableType : TableType
  rootFs : FileSystemType
  esp : Option PlannedPartition
  rootFirstSector : ℤ
  rootLastSector : ℤ
  rootPassphrase : String
  swapPart : Option PlannedPartition

/-- Function `PartitionActions::doAutopartition` (lines 87-213), as the
plan it submits to the partitioning engine. -/
def doAutopartition (env : PlanEnv) (dev : Device)
    (o : AutoPartitionOptions) : AutoPlan :=
  { tableType :=
      if o.defaultPartitionTableType = TableType.unknownTableType then
        (if env.isEfi then TableType.gpt else TableType.msdos)
      else o.defaultPartitionTableType,
    rootFs :=
      if o.defaultFsType = FileSystemType.Unknown then FileSystemType.Ext4
      else o.defaultFsType,
    esp := autopartEsp env dev o,
    rootFirstSector := autopartFirstFreeSector env dev,
    rootLastSector := autopartLastSectorForRoot env dev o,
    rootPassphrase := o.luksPassphrase,
    swapPart :=
      if autopartShouldCreateSwap env dev o then
        some (autopartSwapPartition env dev o)
      else none }

/-- An inclusive range of logical sectors. -/
structure SectorRange where
  first : ℤ
  last : ℤ
deriving DecidableEq

/-- A sector range is within a device of `totalLogical` sectors when it is
nonempty, starts at sector 0 or later and ends at the last sector or
earlier. -/
def SectorRange.inBounds (r : SectorRange) (totalLogical : ℤ) : Prop :=
  0 ≤ r.first ∧ r.first ≤ r.last ∧ r.last ≤ totalLogical - 1

instance (r : SectorRange) (n : ℤ) : Decidable (r.inBounds n) := by
  unfold SectorRange.inBounds
  infer_instance

/-- The sector ranges of an automatic plan, in emission order: ESP (when
present), root, swap (when present). -/
def planRanges (p : AutoPlan) : List SectorRange :=
  (match p.esp with
    | some e => [⟨e.firstSector, e.lastSector⟩]
    | none => [])
  ++ [⟨p.rootFirstSector, p.rootLastSector⟩]
  ++ (match p.swapPart with
    | some s => [⟨s.firstSector, s.lastSector⟩]
    | none => [])

/-- An existing partition or free-space region handed to
`doReplacePartition`: its role flags, the role flags of its parent when the
parent exists and is itself a partition (the `dynamic_cast` in the source),
and its sector range. -/
structure ExistingPartition where
  roles : PartitionRole
  parent : Option PartitionRole
  firstSector : ℤ
  lastSector : ℤ

/-- Options bundle `Choices::ReplacePartitionOptions`. -/
structure ReplaceOptions where
  luksPassphrase : String

/-- The instructions `doReplacePartition` can enqueue, in order: an
optional partition deletion, then the root-layout request. -/
inductive ReplaceOp where
  | deletePart
  | layout (firstSector lastSector : ℤ) (passphrase : String)
deriving DecidableEq

/-- Whether the parent of the selected region exists, is a partition, and
carries the Extended role (lines 233-240). -/
def parentExtended (p : ExistingPartition) : Bool :=
  match p.parent with
  | some parentRoles => parentRoles.extended
  | none => false

/-- The replacement role computation of `doReplacePartition` (lines
223-241): start from the current roles; an Extended selection becomes
Primary; an Unallocated selection becomes Primary, or Logical when its
parent carries the Extended role.  The Unallocated test runs second and
overrides the Extended test, as in the source. -/
def replaceNewRoles (partition : ExistingPartition) : PartitionRole :=
  let afterExtended :=
    if partition.roles.extended then rolePrimary else partition.roles
  if partition.roles.unallocated then
    match partition.parent with
    | some parentRoles =>
        if parentRoles.extended then roleLogical else rolePrimary
    | none => rolePrimary
  else afterExtended

/-- Function `PartitionActions::doReplacePartition` (lines 216-254): the
new role set and the enqueued instructions.  The sector range of the layout
request is the range of the existing descriptor, captured before any
deletion; a deletion is enqueued first only for a selection that is not
Unallocated. -/
def doReplacePartition (partition : ExistingPartition) (o : ReplaceOptions) :
    PartitionRole × List ReplaceOp :=
  (replaceNewRoles partition,
    (if partition.roles.unallocated then [] else [ReplaceOp.deletePart])
      ++ [ReplaceOp.layout partition.firstSector partition.lastSector
            o.luksPassphrase])

/-- Concrete global storage with no overrides, used by the witnesses. -/
def gsW : GlobalStorage := ⟨none, none, none⟩

/-- Concrete device used by the witnesses: 512-byte sectors, 5002048
sectors (about 2.6 GB). -/
def devW : Device := ⟨512, 5002048, 2561048576⟩

/-- Concrete device used by the EFI witnesses: 512-byte sectors, 5002046
sectors. -/
def devEfiW : Device := ⟨512, 5002046, 2561047552⟩

/-- Concrete device used by the range counterexample: 512-byte sectors and
only 10 sectors in total, far too small for the fixed 2 MiB reserved space
and the 300 MiB ESP. -/
def devTiny : Device := ⟨512, 10, 5120⟩

/-- Concrete BIOS environment used by the witnesses: 1 GiB of RAM,
overestimation factor 1. -/
def envW : PlanEnv := ⟨false, gsW, gib 1, 1⟩

/-- Concrete EFI environment used by the witnesses: 1 GiB of RAM,
overestimation factor 1. -/
def envEfiW : PlanEnv := ⟨true, gsW, gib 1, 1⟩

/-- Concrete options used by the witnesses: small swap, no explicit table
or filesystem type, no required space, no passphrase. -/
def optsW : AutoPartitionOptions :=
  ⟨TableType.unknownTableType, FileSystemType.Unknown, SwapChoice.SmallSwap,
    0, "", "/boot/efi"⟩

/-- Concrete options with swap disabled, used by witnesses and the range
counterexample. -/
def optsNoSwapW : AutoPartitionOptions :=
  ⟨TableType.unknownTableType, FileSystemType.Unknown, SwapChoice.NoSwap,
    0, "", "/boot/efi"⟩

/-- Concrete free-space region on sector range [1000, 5000] whose parent
carries the Extended role, used by the replace witnesses. -/
def partExtParentW : ExistingPartition :=
  ⟨⟨false, false, false, true⟩, some ⟨false, true, false, false⟩, 1000, 5000⟩

/-- Concrete replace options without a passphrase. -/
def replaceOptsW : ReplaceOptions := ⟨""⟩

theorem truncQ_intCast (n : ℤ) : truncQ (n : ℚ) = n := by
  unfold truncQ
  split
  · exact Int.floor_intCast n
  · exact Int.ceil_intCast n

theorem truncQ_mono {a b : ℚ} (h : a ≤ b) : truncQ a ≤ truncQ b := by
  unfold truncQ
  split <;> split
  · exact Int.floor_mono h
  · exact absurd (le_trans (by assumption) h) (by assumption)
  · have h1 : (⌈a⌉ : ℤ) ≤ 0 := by
      have ha : a ≤ ((0 : ℤ) : ℚ) := by
        push_cast
        exact le_of_not_le (by assumption)
      exact Int.ceil_le.mpr ha
    have h2 : (0 : ℤ) ≤ ⌊b⌋ := Int.floor_nonneg.mpr (by assumption)
    omega
  · exact Int.ceil_mono h

/-- C3: for `SmallSwap` and `FullSwap`, the base swap size of
`swapSuggestion` before any cap or scaling is `2 × ramBytes` when
`ramBytes ≤ 4 GiB`, exactly `8 GiB` when `4 GiB < ramBytes ≤ 8 GiB`, and
`ramBytes` when `ramBytes > 8 GiB`. -/
theorem swapBase_ram_tiers (r : ℤ) :
    (r ≤ gib 4 → swapBase r = 2 * r) ∧
    (gib 4 < r → r ≤ gib 8 → swapBase r = gib 8) ∧
    (gib 8 < r → swapBase r = r) := by
  refine ⟨fun h1 => ?_, fun h2 h3 => ?_, fun h4 => ?_⟩
  · simp only [swapBase, if_pos h1]
    ring
  · simp only [swapBase, if_neg (not_le.mpr h2), if_pos h3]
  · have ha : ¬ r ≤ gib 4 := by
      have : gib 4 ≤ gib 8 := by norm_num [gib]
      omega
    have hb : ¬ r ≤ gib 8 := not_le.mpr h4
    simp only [swapBase, if_neg ha, if_neg hb]

theorem swapBase_ram_tiers_witness :
    swapBase (gib 2) = 2 * gib 2 ∧ swapBase (gib 6) = gib 8 ∧
      swapBase (gib 12) = gib 12 :=
  ⟨(swapBase_ram_tiers (gib 2)).1 (by norm_num [gib]),
   (swapBase_ram_tiers (gib 6)).2.1 (by norm_num [gib]) (by norm_num [gib]),
   (swapBase_ram_tiers (gib 12)).2.2 (by norm_num [gib])⟩

/-- C5: for `FullSwap`, `swapSuggestion` applies neither the 8 GiB ceiling
nor the 10%-of-available-space cap: the result is exactly the RAM-tier base
size scaled by the overestimation factor, for every available-space value. -/
theorem swapSuggestion_fullSwap_uncapped (a r : ℤ) (f : ℚ) :
    swapSuggestion a SwapChoice.FullSwap r f = truncQ ((swapBase r : ℚ) * f) := by
  simp [swapSuggestion, ensureSuspendToDisk, swapAfterScaling, swapAfterCeiling]

/-- C6: the swap-size suggestion is deterministic in its four inputs: any
two evaluations of `swapSuggestion` at equal available-space, choice, RAM
and overestimation-factor values return equal results.  (The embedding as a
Lean function is pure by construction: no I/O, no mutation.) -/
theorem swapSuggestion_deterministic (a₁ a₂ : ℤ) (s₁ s₂ : SwapChoice)
    (r₁ r₂ : ℤ) (f₁ f₂ : ℚ)
    (ha : a₁ = a₂) (hs : s₁ = s₂) (hr : r₁ = r₂) (hf : f₁ = f₂) :
    swapSuggestion a₁ s₁ r₁ f₁ = swapSuggestion a₂ s₂ r₂ f₂ := by
  subst ha hs hr hf
  rfl

theorem swapSuggestion_deterministic_witness :
    swapSuggestion (gib 20) SwapChoice.SmallSwap (gib 2) 1
      = swapSuggestion (gib 20) SwapChoice.SmallSwap (gib 2) 1 :=
  swapSuggestion_deterministic (gib 20) (gib 20) SwapChoice.SmallSwap
    SwapChoice.SmallSwap (gib 2) (gib 2) 1 1 rfl rfl rfl rfl

/-- C4 as stated is false: with `SmallSwap`, RAM of exactly 4 GiB and
overestimation factor 2 ≥ 1, the returned value on a large disk is 16 GiB,
which exceeds 8 GiB — the 8 GiB ceiling is applied before the
overestimation scaling, not after it. -/
theorem swapSuggestion_smallSwap_counterexample :
    (gib 4 ≤ gib 4 ∧ (1 : ℚ) ≤ 2) ∧
      ¬ swapSuggestion (gib 1000) SwapChoice.SmallSwap (gib 4) 2 ≤ gib 8 := by
  constructor
  · exact ⟨le_refl _, by norm_num⟩
  · have hscale : swapAfterScaling SwapChoice.SmallSwap (gib 4) 2 = gib 16 := by
      have hceil : swapAfterCeiling SwapChoice.SmallSwap (gib 4) = gib 8 := by
        norm_num [swapAfterCeiling, ensureSuspendToDisk, swapBase, gib]
      have hcast : ((swapAfterCeiling SwapChoice.SmallSwap (gib 4) : ℤ) : ℚ) * 2
          = ((gib 16 : ℤ) : ℚ) := by
        rw [hceil]
        push_cast [gib]
        ring
      rw [swapAfterScaling, hcast, truncQ_intCast]
    have hcap : truncQ (1 / 10 * ((gib 1000 : ℤ) : ℚ)) = 107374182400 := by
      have : (1 / 10 : ℚ) * ((gib 1000 : ℤ) : ℚ) = ((107374182400 : ℤ) : ℚ) := by
        push_cast [gib]
        norm_num
      rw [this, truncQ_intCast]
    have hval : swapSuggestion (gib 1000) SwapChoice.SmallSwap (gib 4) 2 = gib 16 := by
      rw [swapSuggestion, if_neg (by simp), if_neg (by simp [ensureSuspendToDisk]),
        hscale, hcap]
      norm_num [gib, min_def]
    rw [hval]
    norm_num [gib]

/-- C4 amended: for RAM `r ≤ 4 GiB` and overestimation factor `f ≥ 1`, with
`SmallSwap` or `FullSwap` the provisional size after scaling and before the
disk-space cap is `2r × f` (truncated); with `SmallSwap` the final value is
at most `8 GiB × f` (truncated) — not 8 GiB itself, since the 8 GiB ceiling
precedes the scaling. -/
theorem swapSuggestion_smallRam (r : ℤ) (f : ℚ) (a : ℤ) (s : SwapChoice)
    (hr : r ≤ gib 4) (hf : 1 ≤ f)
    (hs : s = SwapChoice.SmallSwap ∨ s = SwapChoice.FullSwap) :
    swapAfterScaling s r f = truncQ (((2 * r : ℤ) : ℚ) * f) ∧
      swapSuggestion a SwapChoice.SmallSwap r f
        ≤ truncQ (((gib 8 : ℤ) : ℚ) * f) := by
  have hbase : swapBase r = r * 2 := by simp only [swapBase, if_pos hr]
  have h2r8 : r * 2 ≤ gib 8 := by
    have : gib 8 = gib 4 * 2 := by norm_num [gib]
    omega
  have hceil : ∀ s' : SwapChoice, swapAfterCeiling s' r = r * 2 := by
    intro s'
    rw [swapAfterCeiling, hbase]
    split
    · rfl
    · exact min_eq_right h2r8
  have hf0 : (0 : ℚ) ≤ f := le_trans (by norm_num) hf
  constructor
  · rw [swapAfterScaling, hceil]
    congr 2
    push_cast
    ring
  · rw [swapSuggestion]
    norm_num [ensureSuspendToDisk]
    refine le_trans (min_le_left _ _) ?_
    rw [swapAfterScaling, hceil]
    apply truncQ_mono
    have hcast : ((r * 2 : ℤ) : ℚ) ≤ ((gib 8 : ℤ) : ℚ) := by exact_mod_cast h2r8
    exact mul_le_mul_of_nonneg_right hcast hf0

theorem swapSuggestion_smallRam_witness :
    (gib 2 ≤ gib 4 ∧ (1 : ℚ) ≤ 1 ∧
        (SwapChoice.SmallSwap = SwapChoice.SmallSwap ∨
          SwapChoice.SmallSwap = SwapChoice.FullSwap)) ∧
      swapAfterScaling SwapChoice.SmallSwap (gib 2) 1
          = truncQ (((2 * gib 2 : ℤ) : ℚ) * 1) ∧
        swapSuggestion (gib 20) SwapChoice.SmallSwap (gib 2) 1
          ≤ truncQ (((gib 8 : ℤ) : ℚ) * 1) :=
  ⟨⟨by norm_num [gib], le_refl 1, Or.inl rfl⟩,
   swapSuggestion_smallRam (gib 2) 1 (gib 20) SwapChoice.SmallSwap
     (by norm_num [gib]) (le_refl 1) (Or.inl rfl)⟩

theorem swapSuggestion_gib1_tenth (a m : ℤ) (ha : a = 10 * m) :
    swapSuggestion a SwapChoice.SmallSwap (gib 1) 1 = min (gib 2) m := by
  rw [swapSuggestion, if_neg (by simp), if_neg (by simp [ensureSuspendToDisk])]
  have h1 : swapAfterScaling SwapChoice.SmallSwap (gib 1) 1 = gib 2 := by
    have hceil : swapAfterCeiling SwapChoice.SmallSwap (gib 1) = gib 2 := by
      norm_num [swapAfterCeiling, ensureSuspendToDisk, swapBase, gib, min_def]
    rw [swapAfterScaling, hceil, mul_one, truncQ_intCast]
  have h2 : truncQ (1 / 10 * ((a : ℤ) : ℚ)) = m := by
    subst ha
    have hq : (1 / 10 : ℚ) * ((10 * m : ℤ) : ℚ) = ((m : ℤ) : ℚ) := by
      push_cast
      ring
    rw [hq, truncQ_intCast]
  rw [h1, h2]

theorem autopartAvailable_bios : autopartAvailableSpaceB envW devW = 2560000000 := by
  decide

theorem suggested_bios : autopartSuggestedSwapSizeB envW devW optsW = 256000000 := by
  rw [autopartSuggestedSwapSizeB,
    if_pos (show autopartMayCreateSwap optsW from Or.inl rfl), autopartAvailable_bios]
  show swapSuggestion 2560000000 SwapChoice.SmallSwap (gib 1) 1 = 256000000
  rw [swapSuggestion_gib1_tenth 2560000000 256000000 (by norm_num)]
  norm_num [gib, min_def]

theorem should_bios : autopartShouldCreateSwap envW devW optsW := by
  have h : autopartAvailableSpaceB envW devW > autopartRequiredSpaceB envW devW optsW := by
    rw [autopartRequiredSpaceB, suggested_bios, autopartAvailable_bios]
    decide
  exact ⟨Or.inl rfl, h⟩

theorem autopartAvailable_efi : autopartAvailableSpaceB envEfiW devEfiW = 2244377600 := by
  decide

theorem suggested_efi : autopartSuggestedSwapSizeB envEfiW devEfiW optsW = 224437760 := by
  rw [autopartSuggestedSwapSizeB,
    if_pos (show autopartMayCreateSwap optsW from Or.inl rfl), autopartAvailable_efi]
  show swapSuggestion 2244377600 SwapChoice.SmallSwap (gib 1) 1 = 224437760
  rw [swapSuggestion_gib1_tenth 2244377600 224437760 (by norm_num)]
  norm_num [gib, min_def]

theorem should_efi : autopartShouldCreateSwap envEfiW devEfiW optsW := by
  have h : autopartAvailableSpaceB envEfiW devEfiW
      > autopartRequiredSpaceB envEfiW devEfiW optsW := by
    rw [autopartRequiredSpaceB, suggested_efi, autopartAvailable_efi]
    decide
  exact ⟨Or.inl rfl, h⟩

/-- C1: for every device and option bundle whose swap choice is SmallSwap
or FullSwap, the plan contains a swap partition iff availableSpaceBytes =
(totalLogicalSectors - firstFreeSector) × logicalSectorSize strictly
exceeds requiredSpaceBytes = requiredSpaceB + 600 MiB + suggestedSwapBytes;
when the two are exactly equal, no swap partition is created. -/
theorem doAutopartition_swap_iff (env : PlanEnv) (dev : Device)
    (o : AutoPartitionOptions)
    (hs : o.swap = SwapChoice.SmallSwap ∨ o.swap = SwapChoice.FullSwap) :
    (((doAutopartition env dev o).swapPart).isSome ↔
      (dev.totalLogical - autopartFirstFreeSector env dev) * dev.logicalSize >
        o.requiredSpaceB + mib 600 +
          swapSuggestion
            ((dev.totalLogical - autopartFirstFreeSector env dev) * dev.logicalSize)
            o.swap env.totalRamB env.overestimationFactor) ∧
    ((dev.totalLogical - autopartFirstFreeSector env dev) * dev.logicalSize =
        o.requiredSpaceB + mib 600 +
          swapSuggestion
            ((dev.totalLogical - autopartFirstFreeSector env dev) * dev.logicalSize)
            o.swap env.totalRamB env.overestimationFactor →
      (doAutopartition env dev o).swapPart = none) := by
  have hmay : autopartMayCreateSwap o := hs
  have havail : autopartAvailableSpaceB env dev
      = (dev.totalLogical - autopartFirstFreeSector env dev) * dev.logicalSize := rfl
  have hreq : autopartRequiredSpaceB env dev o
      = o.requiredSpaceB + mib 600 +
          swapSuggestion (autopartAvailableSpaceB env dev) o.swap env.totalRamB
            env.overestimationFactor := by
    rw [autopartRequiredSpaceB, autopartSuggestedSwapSizeB, if_pos hmay]
  have hkey : (((doAutopartition env dev o).swapPart).isSome = true)
      ↔ autopartShouldCreateSwap env dev o := by
    by_cases h : autopartShouldCreateSwap env dev o <;> simp [doAutopartition, h]
  have hshould : autopartShouldCreateSwap env dev o
      ↔ autopartAvailableSpaceB env dev > autopartRequiredSpaceB env dev o := by
    rw [autopartShouldCreateSwap]
    exact and_iff_right hmay
  constructor
  · rw [hkey, hshould, hreq, havail]
  · intro heq
    have hnot : ¬ autopartShouldCreateSwap env dev o := by
      rw [hshould, hreq, havail]
      omega
    simp [doAutopartition, hnot]

theorem doAutopartition_swap_iff_witness :
    (optsW.swap = SwapChoice.SmallSwap ∨ optsW.swap = SwapChoice.FullSwap) ∧
      ((doAutopartition envW devW optsW).swapPart).isSome = true :=
  ⟨Or.inl rfl,
   (doAutopartition_swap_iff envW devW optsW (Or.inl rfl)).1.mpr (by
     have havail : (devW.totalLogical - autopartFirstFreeSector envW devW)
         * devW.logicalSize = 2560000000 := by decide
     rw [havail]
     show (2560000000 : ℤ) >
       0 + mib 600 + swapSuggestion 2560000000 SwapChoice.SmallSwap (gib 1) 1
     rw [swapSuggestion_gib1_tenth 2560000000 256000000 (by norm_num)]
     norm_num [gib, mib, min_def])⟩

theorem autopartSwapPartition_sectors (env : PlanEnv) (dev : Device)
    (o : AutoPartitionOptions) :
    (autopartSwapPartition env dev o).firstSector
        = autopartLastSectorForRoot env dev o + 1 ∧
      (autopartSwapPartition env dev o).lastSector = dev.totalLogical - 1 := by
  by_cases hp : o.luksPassphrase.isEmpty <;>
    simp [autopartSwapPartition, hp, createNewPartition, createNewEncryptedPartition]

theorem planRanges_doAutopartition (env : PlanEnv) (dev : Device)
    (o : AutoPartitionOptions) :
    planRanges (doAutopartition env dev o) =
      (if env.isEfi then
        [⟨autopartFirstFreeSector0 env dev, autopartEspLastSector env dev⟩]
      else [])
        ++ [⟨autopartFirstFreeSector env dev, autopartLastSectorForRoot env dev o⟩]
        ++ (if autopartShouldCreateSwap env dev o then
            [⟨autopartLastSectorForRoot env dev o + 1, dev.totalLogical - 1⟩]
          else []) := by
  obtain ⟨h1, h2⟩ := autopartSwapPartition_sectors env dev o
  by_cases hsw : autopartShouldCreateSwap env dev o <;>
    cases hefi : env.isEfi <;>
      simp [planRanges, doAutopartition, autopartEsp, hefi, hsw, h1, h2,
        createNewPartition]

/-- C2 as stated is false: on a 10-sector device with EFI firmware, the
fixed 2 MiB reserved space and the default 300 MiB ESP yield sector ranges
far beyond the end of the device (ESP range [4096, 618495] on a device
whose last sector is 9), so not every produced range lies within
[0, totalLogicalSectors - 1]. -/
theorem doAutopartition_ranges_counterexample :
    ¬ (List.Pairwise (fun a b => a.last < b.first)
        (planRanges (doAutopartition envEfiW devTiny optsNoSwapW)) ∧
      List.Pairwise (fun a b => a.first < b.first)
        (planRanges (doAutopartition envEfiW devTiny optsNoSwapW)) ∧
      ∀ r ∈ planRanges (doAutopartition envEfiW devTiny optsNoSwapW),
        r.inBounds devTiny.totalLogical) := by
  intro h
  exact absurd h.2.2 (by decide)

/-- C2 amended: provided the logical sector size is positive, the ESP
sector count is positive when EFI (the assertion of the source), the root
range is nonempty, and the suggested swap size is nonnegative when swap is
created — preconditions the code assumes but never checks, and which a
too-small device violates — the ranges produced by `doAutopartition` are
pairwise disjoint, strictly increasing in their first sector in emission
order (ESP, root, swap), and each lies within [0, totalLogicalSectors - 1]. -/
theorem doAutopartition_ranges_sound (env : PlanEnv) (dev : Device)
    (o : AutoPartitionOptions)
    (hls : 0 < dev.logicalSize)
    (hesp : env.isEfi = true → 0 < autopartEfiSectorCount env dev)
    (hroot : autopartFirstFreeSector env dev ≤ autopartLastSectorForRoot env dev o)
    (hsug : autopartShouldCreateSwap env dev o →
      0 ≤ autopartSuggestedSwapSizeB env dev o) :
    List.Pairwise (fun a b => a.last < b.first)
        (planRanges (doAutopartition env dev o)) ∧
      List.Pairwise (fun a b => a.first < b.first)
        (planRanges (doAutopartition env dev o)) ∧
      ∀ r ∈ planRanges (doAutopartition env dev o),
        r.inBounds dev.totalLogical := by
  have hff0 : 0 ≤ autopartFirstFreeSector0 env dev := by
    show 0 ≤ (autopartEmptySpaceSizeB env).tdiv dev.logicalSize
    refine Int.tdiv_nonneg ?_ hls.le
    cases h : env.isEfi <;> norm_num [autopartEmptySpaceSizeB, h, mib]
  have hk : autopartShouldCreateSwap env dev o →
      0 ≤ (autopartSuggestedSwapSizeB env dev o).tdiv dev.logicalSize :=
    fun h => Int.tdiv_nonneg (hsug h) hls.le
  have hL : autopartLastSectorForRoot env dev o ≤ dev.totalLogical - 1 := by
    rw [autopartLastSectorForRoot]
    split
    · have := hk (by assumption)
      omega
    · omega
  rw [planRanges_doAutopartition]
  by_cases hefi : env.isEfi = true
  · have hc := hesp hefi
    have hF : autopartFirstFreeSector env dev = autopartEspLastSector env dev + 1 := by
      simp [autopartFirstFreeSector, hefi]
    have hE : autopartEspLastSector env dev
        = autopartFirstFreeSector0 env dev + autopartEfiSectorCount env dev - 1 := rfl
    by_cases hsw : autopartShouldCreateSwap env dev o
    · have h3 : autopartLastSectorForRoot env dev o + 1 ≤ dev.totalLogical - 1 := by
        have := hk hsw
        rw [autopartLastSectorForRoot, if_pos hsw]
        omega
      simp [hefi, hsw, List.pairwise_cons, SectorRange.inBounds]
      omega
    · simp [hefi, hsw, List.pairwise_cons, SectorRange.inBounds]
      omega
  · have hF : autopartFirstFreeSector env dev = autopartFirstFreeSector0 env dev := by
      simp [autopartFirstFreeSector, hefi]
    by_cases hsw : autopartShouldCreateSwap env dev o
    · have h3 : autopartLastSectorForRoot env dev o + 1 ≤ dev.totalLogical - 1 := by
        have := hk hsw
        rw [autopartLastSectorForRoot, if_pos hsw]
        omega
      simp [hefi, hsw, List.pairwise_cons, SectorRange.inBounds]
      omega
    · simp [hefi, hsw, List.pairwise_cons, SectorRange.inBounds]
      omega

theorem doAutopartition_ranges_sound_witness :
    (0 < devW.logicalSize ∧
        (envEfiW.isEfi = true → 0 < autopartEfiSectorCount envEfiW devW) ∧
        autopartFirstFreeSector envEfiW devW
          ≤ autopartLastSectorForRoot envEfiW devW optsNoSwapW ∧
        (autopartShouldCreateSwap envEfiW devW optsNoSwapW →
          0 ≤ autopartSuggestedSwapSizeB envEfiW devW optsNoSwapW)) ∧
      List.Pairwise (fun a b => a.last < b.first)
        (planRanges (doAutopartition envEfiW devW optsNoSwapW)) ∧
      List.Pairwise (fun a b => a.first < b.first)
        (planRanges (doAutopartition envEfiW devW optsNoSwapW)) ∧
      ∀ r ∈ planRanges (doAutopartition envEfiW devW optsNoSwapW),
        r.inBounds devW.totalLogical :=
  ⟨⟨by decide, by decide, by decide, by decide⟩,
   doAutopartition_ranges_sound envEfiW devW optsNoSwapW (by decide) (by decide)
     (by decide) (by decide)⟩

/-- C9: the root range starts at the free-space cursor (past the reserved
leading space and the ESP when EFI) and ends at totalLogicalSectors - 1,
lowered by suggestedSwapBytes / logicalSectorSize + 1 when swap is created;
the swap partition, when created, spans from the sector immediately after
the root range to totalLogicalSectors - 1. -/
theorem doAutopartition_root_swap_geometry (env : PlanEnv) (dev : Device)
    (o : AutoPartitionOptions) :
    (doAutopartition env dev o).rootFirstSector = autopartFirstFreeSector env dev ∧
    ((doAutopartition env dev o).rootLastSector =
      if autopartShouldCreateSwap env dev o then
        dev.totalLogical - 1
          - ((autopartSuggestedSwapSizeB env dev o).tdiv dev.logicalSize + 1)
      else dev.totalLogical - 1) ∧
    ∀ sp, (doAutopartition env dev o).swapPart = some sp →
      sp.firstSector = (doAutopartition env dev o).rootLastSector + 1 ∧
        sp.lastSector = dev.totalLogical - 1 := by
  refine ⟨rfl, ?_, ?_⟩
  · show autopartLastSectorForRoot env dev o = _
    by_cases h : autopartShouldCreateSwap env dev o <;>
      simp [autopartLastSectorForRoot, h]
  · intro sp hsp
    have hsp' : (if autopartShouldCreateSwap env dev o then
        some (autopartSwapPartition env dev o) else none) = some sp := hsp
    by_cases h : autopartShouldCreateSwap env dev o
    · rw [if_pos h] at hsp'
      obtain rfl := Option.some.inj hsp'
      exact autopartSwapPartition_sectors env dev o
    · rw [if_neg h] at hsp'
      exact absurd hsp' (by simp)

theorem doAutopartition_root_swap_geometry_witness :
    (doAutopartition envW devW optsW).swapPart
        = some (autopartSwapPartition envW devW optsW) ∧
      (autopartSwapPartition envW devW optsW).firstSector
          = (doAutopartition envW devW optsW).rootLastSector + 1 ∧
        (autopartSwapPartition envW devW optsW).lastSector
          = devW.totalLogical - 1 := by
  have hsp : (doAutopartition envW devW optsW).swapPart
      = some (autopartSwapPartition envW devW optsW) := by
    simp [doAutopartition, should_bios]
  exact ⟨hsp, (doAutopartition_root_swap_geometry envW devW optsW).2.2 _ hsp⟩

/-- C10: every partition created directly by `doAutopartition` carries the
Primary role, never Logical or Extended — the ESP is a Primary FAT32
partition and the swap partition is Primary in both the plain and the
encrypted variant; the two creation helpers differ only in the passphrase
they attach, sharing sector range, label and format flag. -/
theorem doAutopartition_roles_primary (env : PlanEnv) (dev : Device)
    (o : AutoPartitionOptions) :
    (∀ p, (doAutopartition env dev o).esp = some p →
        p.role = rolePrimary ∧ p.fs = FileSystemType.Fat32 ∧ p.format = true) ∧
    (∀ p, (doAutopartition env dev o).swapPart = some p →
        p.role = rolePrimary ∧ p.fs = FileSystemType.LinuxSwap ∧
          p.format = true ∧
          p.passphrase =
            (if o.luksPassphrase.isEmpty then none else some o.luksPassphrase)) ∧
    (∀ role fs lab fst lst pw,
        createNewEncryptedPartition role fs lab fst lst pw
          = { createNewPartition role fs lab fst lst with
              passphrase := some pw }) := by
  refine ⟨?_, ?_, ?_⟩
  · intro p hp
    have hp' : autopartEsp env dev o = some p := hp
    by_cases hefi : env.isEfi = true
    · rw [autopartEsp, if_pos hefi] at hp'
      obtain rfl := Option.some.inj hp'
      exact ⟨rfl, rfl, rfl⟩
    · rw [autopartEsp, if_neg hefi] at hp'
      exact absurd hp' (by simp)
  · intro p hp
    have hp' : (if autopartShouldCreateSwap env dev o then
        some (autopartSwapPartition env dev o) else none) = some p := hp
    by_cases h : autopartShouldCreateSwap env dev o
    · rw [if_pos h] at hp'
      obtain rfl := Option.some.inj hp'
      by_cases hpw : o.luksPassphrase.isEmpty <;>
        simp [autopartSwapPartition, hpw, createNewPartition,
          createNewEncryptedPartition, rolePrimary]
    · rw [if_neg h] at hp'
      exact absurd hp' (by simp)
  · intro role fs lab fst lst pw
    rfl

theorem doAutopartition_roles_primary_witness :
    (∃ p, (doAutopartition envEfiW devEfiW optsW).esp = some p ∧
        p.role = rolePrimary) ∧
      ∃ p, (doAutopartition envEfiW devEfiW optsW).swapPart = some p ∧
        p.role = rolePrimary := by
  have hEsp : (doAutopartition envEfiW devEfiW optsW).esp
      = some { createNewPartition rolePrimary FileSystemType.Fat32 ""
                 (autopartFirstFreeSector0 envEfiW devEfiW)
                 (autopartEspLastSector envEfiW devEfiW) with
               format := true,
               mountPoint := optsW.efiPartitionMountPoint,
               label := (envEfiW.gs.efiSystemPartitionName).getD "",
               espFlag := true } := rfl
  have hSwap : (doAutopartition envEfiW devEfiW optsW).swapPart
      = some (autopartSwapPartition envEfiW devEfiW optsW) := by
    simp [doAutopartition, should_efi]
  exact ⟨⟨_, hEsp,
      ((doAutopartition_roles_primary envEfiW devEfiW optsW).1 _ hEsp).1⟩,
    ⟨_, hSwap,
      ((doAutopartition_roles_primary envEfiW devEfiW optsW).2.1 _ hSwap).1⟩⟩

/-- C7: the replacement role computed by `doReplacePartition` is Logical
for an Unallocated selection whose parent carries the Extended role,
Primary for an Unallocated selection without an Extended parent, Primary
for an Extended selection, and the unchanged current role set in every
other case. -/
theorem doReplacePartition_role_rules (p : ExistingPartition)
    (o : ReplaceOptions) :
    (p.roles.unallocated = true → parentExtended p = true →
      (doReplacePartition p o).1 = roleLogical) ∧
    (p.roles.unallocated = true → parentExtended p = false →
      (doReplacePartition p o).1 = rolePrimary) ∧
    (p.roles.unallocated = false → p.roles.extended = true →
      (doReplacePartition p o).1 = rolePrimary) ∧
    (p.roles.unallocated = false → p.roles.extended = false →
      (doReplacePartition p o).1 = p.roles) := by
  refine ⟨fun h1 h2 => ?_, fun h1 h2 => ?_, fun h1 h2 => ?_, fun h1 h2 => ?_⟩
  · cases hp : p.parent with
    | none => simp [parentExtended, hp] at h2
    | some pr =>
        have hpe : pr.extended = true := by simpa [parentExtended, hp] using h2
        simp [doReplacePartition, replaceNewRoles, h1, hp, hpe]
  · cases hp : p.parent with
    | none => simp [doReplacePartition, replaceNewRoles, h1, hp]
    | some pr =>
        have hpe : pr.extended = false := by simpa [parentExtended, hp] using h2
        simp [doReplacePartition, replaceNewRoles, h1, hp, hpe]
  · simp [doReplacePartition, replaceNewRoles, h1, h2]
  · simp [doReplacePartition, replaceNewRoles, h1, h2]

theorem doReplacePartition_role_rules_witness :
    (partExtParentW.roles.unallocated = true ∧
        parentExtended partExtParentW = true) ∧
      (doReplacePartition partExtParentW replaceOptsW).1 = roleLogical :=
  ⟨⟨rfl, rfl⟩,
   (doReplacePartition_role_rules partExtParentW replaceOptsW).1 rfl rfl⟩

/-- C8: the root-layout instruction of `doReplacePartition` always reuses
the first/last sectors of the existing descriptor (captured before any
deletion); a delete instruction is enqueued, before the layout instruction,
iff the descriptor is not Unallocated, and an Unallocated (free-space)
selection enqueues no delete. -/
theorem doReplacePartition_delete_and_range (p : ExistingPartition)
    (o : ReplaceOptions) :
    (ReplaceOp.layout p.firstSector p.lastSector o.luksPassphrase
        ∈ (doReplacePartition p o).2) ∧
      (ReplaceOp.deletePart ∈ (doReplacePartition p o).2 ↔
        p.roles.unallocated = false) ∧
      (p.roles.unallocated = true →
        (doReplacePartition p o).2
          = [ReplaceOp.layout p.firstSector p.lastSector o.luksPassphrase]) ∧
      (p.roles.unallocated = false →
        (doReplacePartition p o).2
          = [ReplaceOp.deletePart,
             ReplaceOp.layout p.firstSector p.lastSector o.luksPassphrase]) := by
  cases h : p.roles.unallocated <;> simp [doReplacePartition, h]

theorem doReplacePartition_delete_and_range_witness :
    partExtParentW.roles.unallocated = true ∧
      (doReplacePartition partExtParentW replaceOptsW).2
        = [ReplaceOp.layout 1000 5000 ""] :=
  ⟨rfl,
   (doReplacePartition_delete_and_range partExtParentW replaceOptsW).2.2.1 rfl⟩
